import Mathlib

/-!
Verification of the farabi-research-engine backend research pipeline.

This file shallowly embeds the pure logic of the backend in Lean 4.
External effects (HTTP calls to the academic search provider, the reader
service, and the LLM provider) are modelled as explicit oracle arguments:
a function from request data to the outcome the remote side would produce.
Python strings are modelled as Lean `String` where only compared or passed
around, and as `List Char` where character-level processing occurs
(truncation, word counting).  Python `dict.get` with a default is modelled
by `Option` lookups; Python truthiness of strings is emptiness.
-/

namespace Farabi

/-! ## Python string helpers -/

abbrev Chars := List Char

/-- Helper for `pyWords`: scan character by character, `acc` holding the
(reversed) word currently being read. -/
def pyWordsAux : Chars → Chars → List Chars
  | [], acc => if acc = [] then [] else [acc.reverse]
  | c :: rest, acc =>
    if c.isWhitespace then
      if acc = [] then pyWordsAux rest []
      else acc.reverse :: pyWordsAux rest []
    else pyWordsAux rest (c :: acc)

/-- The list of whitespace-separated words of a character list, mirroring
Python `str.split()` (no separator): split on whitespace runs, dropping
empty tokens. -/
def pyWords (s : Chars) : List Chars := pyWordsAux s []

/-- `len(text.split())`, the word count used throughout the content fetcher. -/
def pyWordCount (s : Chars) : Nat := (pyWords s).length

/-- Python `str.split()` (no separator) on a `String`: split on whitespace
runs, dropping empty tokens. -/
def pySplitWS (s : String) : List String :=
  (pyWords s.data).map List.asString

/-- Python `str.strip()`: remove leading and trailing whitespace. -/
def pyStripChars (s : Chars) : Chars :=
  ((s.dropWhile Char.isWhitespace).reverse.dropWhile Char.isWhitespace).reverse

/-- Python `str.strip()` on a `String`. -/
def pyStrip (s : String) : String :=
  (pyStripChars s.data).asString

/-- Python `" ".join(words)`. -/
def pyJoinSpace (words : List String) : String :=
  (List.intercalate [' '] (words.map String.data)).asString

/-- Python `text or default` for an optional string value: the default is
substituted when the value is `None` or empty. -/
def pyOrChars (o : Option Chars) (d : Chars) : Chars :=
  match o with
  | some a => if a = [] then d else a
  | none => d

/-- Python truthiness of an optional string (`if s:`): false for `None` and
for the empty string. -/
def pyTruthyOptStr (o : Option String) : Bool :=
  match o with
  | some s => s ≠ ""
  | none => false

/-- Python truthiness of an optional character-level string. -/
def pyTruthyOptChars (o : Option Chars) : Bool :=
  match o with
  | some s => s ≠ []
  | none => false

/-- Python `if not KEY:` for configuration values read from the environment:
the key is missing (`None`) or the empty string. -/
def pyKeyFalsy (k : Option String) : Bool :=
  match k with
  | some s => s = ""
  | none => true

/-! ## JSON values

LLM responses and the search provider payload are JSON; after
`json.loads` / `response.json()` they are dynamic Python values.  `JValue`
is their shallow embedding (numbers collapsed to `Int`, which is all the
code ever stores). -/

inductive JValue where
  | null
  | bool (b : Bool)
  | num (n : Int)
  | str (s : String)
  | arr (elems : List JValue)
  | obj (fields : List (String × JValue))

/-- Python truthiness of a JSON value. -/
def JValue.truthy : JValue → Bool
  | .null => false
  | .bool b => b
  | .num n => n != 0
  | .str s => s != ""
  | .arr [] => false
  | .arr (_ :: _) => true
  | .obj [] => false
  | .obj (_ :: _) => true

/-- A JSON value that pydantic accepts for an `Optional[str]` field,
collapsed to its string content (`null` and a missing key give `none`).
Non-string, non-null values would raise a validation error; they are
handled by the callers of this helper. -/
def jvAsOptStr : Option JValue → Option String
  | some (.str s) => some s
  | _ => none

/-! ## Data model: `Paper` (src/backend/app/routers/semantic_scholar.py) -/

structure Author where
  name : String
deriving DecidableEq, Repr

structure Paper where
  paperId : String
  title : String
  abstract : Option String := none
  authors : List Author := []
  year : Option Int := none
  citationCount : Option Int := none
  url : Option String := none
  openAccessPdf : Option (List (String × JValue)) := none

/-! ## Multi-search merge (src/backend/app/routers/research_pipeline.py,
`multi_search`, lines 558-610) -/

/-- The inner loop body of the deduplicating merge: fold one search result
list into the accumulator `(all_papers, seen_ids)`, appending papers whose
`paperId` has not been seen yet (first-seen-wins). -/
def addPapers (papers : List Paper) (acc : List Paper × List String) :
    List Paper × List String :=
  papers.foldl
    (fun acc paper =>
      if paper.paperId ∈ acc.2 then acc
      else (acc.1 ++ [paper], paper.paperId :: acc.2))
    acc

/-- Merge the per-sub-query search outcomes: a task that raised an
exception is skipped (`continue`), a successful task contributes its papers
through the deduplicating loop. -/
def mergeSearchResults (search_results : List (Except String (List Paper))) :
    List Paper :=
  (search_results.foldl
    (fun acc r =>
      match r with
      | .error _ => acc
      | .ok papers => addPapers papers acc)
    ([], [])).1

/-- The `/multi-search` endpoint body: one search task per sub-query (each
issued with `limit_per_query`), gathered in submission order, then merged
and deduplicated.  The `search` oracle maps a query and limit to the task
outcome (`Except.error` models a raised exception). -/
def multi_search (search : String → Nat → Except String (List Paper))
    (sub_queries : List String) (limit_per_query : Nat) : List Paper :=
  mergeSearchResults (sub_queries.map fun q => search q limit_per_query)

/-- `asyncio.gather` reconstructs the result list in task submission order
from the unordered set of completed tasks: `completed` pairs each task
index with its outcome, in whatever order the tasks finished. -/
def gatherFromCompleted (n : Nat)
    (completed : List (Nat × Except String (List Paper))) :
    List (Except String (List Paper)) :=
  (List.range n).map fun i => (completed.lookup i).getD (.error "missing task")

/-! ### Properties of the deduplicating merge -/

theorem addPapers_spec (l : List Paper) (acc : List Paper × List String)
    (hacc : ∀ x, x ∈ acc.2 ↔ x ∈ acc.1.map Paper.paperId) :
    (∀ x, x ∈ (addPapers l acc).2 ↔ x ∈ (addPapers l acc).1.map Paper.paperId)
    ∧ (∃ t, (addPapers l acc).1 = acc.1 ++ t)
    ∧ (∀ p ∈ l, p.paperId ∈ (addPapers l acc).1.map Paper.paperId)
    ∧ ((acc.1.map Paper.paperId).Nodup →
        ((addPapers l acc).1.map Paper.paperId).Nodup) := by
  induction l generalizing acc with
  | nil =>
    refine ⟨hacc, ⟨[], by simp [addPapers]⟩, by simp, fun h => ?_⟩
    simpa [addPapers] using h
  | cons p rest ih =>
    by_cases hmem : p.paperId ∈ acc.2
    · have hstep : addPapers (p :: rest) acc = addPapers rest acc := by
        simp [addPapers, List.foldl_cons, hmem]
      rw [hstep]
      obtain ⟨h1, h2, h3, h4⟩ := ih acc hacc
      refine ⟨h1, h2, ?_, h4⟩
      intro q hq
      rcases List.mem_cons.mp hq with rfl | hq
      · obtain ⟨t, ht⟩ := h2
        have : q.paperId ∈ acc.1.map Paper.paperId := (hacc _).mp hmem
        rw [ht, List.map_append]
        exact List.mem_append_left _ this
      · exact h3 q hq
    · have hstep : addPapers (p :: rest) acc =
          addPapers rest (acc.1 ++ [p], p.paperId :: acc.2) := by
        simp [addPapers, List.foldl_cons, hmem]
      rw [hstep]
      have hacc2 : ∀ x, x ∈ p.paperId :: acc.2 ↔
          x ∈ (acc.1 ++ [p]).map Paper.paperId := by
        intro x
        simp [List.mem_cons, hacc x, or_comm]
      obtain ⟨h1, h2, h3, h4⟩ := ih (acc.1 ++ [p], p.paperId :: acc.2) hacc2
      refine ⟨h1, ?_, ?_, ?_⟩
      · obtain ⟨t, ht⟩ := h2
        exact ⟨[p] ++ t, by simpa [List.append_assoc] using ht⟩
      · intro q hq
        rcases List.mem_cons.mp hq with rfl | hq
        · obtain ⟨t, ht⟩ := h2
          rw [ht, List.map_append, List.map_append]
          exact List.mem_append_left _ (List.mem_append_right _ (by simp))
        · exact h3 q hq
      · intro hnd
        apply h4
        have hpid : p.paperId ∉ acc.1.map Paper.paperId :=
          fun hc => hmem ((hacc _).mpr hc)
        simp only [List.map_append, List.map_cons, List.map_nil]
        simpa [List.Nodup] using List.Nodup.append hnd (by simp)
          (by simpa [List.disjoint_singleton] using hpid)

theorem mergeLoop_spec (results : List (Except String (List Paper)))
    (acc : List Paper × List String)
    (hacc : ∀ x, x ∈ acc.2 ↔ x ∈ acc.1.map Paper.paperId)
    (hnd : (acc.1.map Paper.paperId).Nodup) :
    ((results.foldl
        (fun acc r =>
          match r with
          | .error _ => acc
          | .ok papers => addPapers papers acc)
        acc).1.map Paper.paperId).Nodup := by
  induction results generalizing acc with
  | nil => simpa using hnd
  | cons r rest ih =>
    match r with
    | .error e => exact ih acc hacc hnd
    | .ok papers =>
      obtain ⟨h1, _, _, h4⟩ := addPapers_spec papers acc hacc
      exact ih _ h1 (h4 hnd)

theorem mergeSearchResults_nodup (results : List (Except String (List Paper))) :
    ((mergeSearchResults results).map Paper.paperId).Nodup := by
  exact mergeLoop_spec results ([], []) (by simp) (by simp)

theorem lookup_eq_of_mem_of_nodupKeys {α : Type}
    (l : List (Nat × α)) (hnd : (l.map Prod.fst).Nodup)
    (k : Nat) (v : α) (hm : (k, v) ∈ l) : l.lookup k = some v := by
  induction l with
  | nil => simp at hm
  | cons hd tl ih =>
    obtain ⟨k1, v1⟩ := hd
    simp only [List.map_cons, List.nodup_cons] at hnd
    rcases List.mem_cons.mp hm with heq | htl
    · obtain ⟨rfl, rfl⟩ := Prod.mk.injEq .. ▸ heq
      simp [List.lookup]
    · have hk : k ≠ k1 := by
        rintro rfl
        exact hnd.1 (List.mem_map.mpr ⟨(k, v), htl, rfl⟩)
      have hbeq : (k == k1) = false := by simpa using hk
      simp only [List.lookup, hbeq]
      exact ih hnd.2 htl

theorem gather_eq (results : List (Except String (List Paper)))
    (completed : List (Nat × Except String (List Paper)))
    (hperm : completed.Perm results.enum) :
    gatherFromCompleted results.length completed = results := by
  have hkeys : (completed.map Prod.fst).Nodup := by
    have : (completed.map Prod.fst).Perm (results.enum.map Prod.fst) :=
      hperm.map Prod.fst
    rw [this.nodup_iff, List.enum_map_fst]
    exact List.nodup_range _
  have hlookup : ∀ (i : Nat) (h : i < results.length),
      completed.lookup i = some (results.get ⟨i, h⟩) := by
    intro i h
    apply lookup_eq_of_mem_of_nodupKeys completed hkeys
    apply hperm.mem_iff.mpr
    have : results.enum.get ⟨i, by simpa using h⟩ = (i, results.get ⟨i, h⟩) := by
      simp [List.getElem_enum]
    rw [← this]
    exact List.get_mem _ _ _
  apply List.ext_get
  · simp [gatherFromCompleted]
  · intro i h1 h2
    simp only [gatherFromCompleted, List.get_eq_getElem, List.getElem_map,
      List.getElem_range]
    rw [hlookup i h2]
    rfl

theorem mergeSearchResults_error_irrelevant
    (pre post : List (Except String (List Paper))) (e : String) :
    mergeSearchResults (pre ++ .error e :: post) =
      mergeSearchResults (pre ++ .ok [] :: post) := by
  simp only [mergeSearchResults, List.foldl_append, List.foldl_cons]
  rfl

/-- Claim C1: the multi-search merge produces a list with no duplicate
`paperId` values; deduplication is first-seen-wins iterating completed
results in sub-query submission order (the gather join reconstructs
submission order from any completion order), and a failed sub-query task
contributes nothing to the merged list, so the merged output is the same
regardless of the order in which concurrent tasks complete. -/
theorem multi_search_dedup_order_independent
    (search : String → Nat → Except String (List Paper))
    (sub_queries : List String) (limit : Nat)
    (completed : List (Nat × Except String (List Paper)))
    (hperm : completed.Perm (sub_queries.map fun q => search q limit).enum) :
    ((multi_search search sub_queries limit).map Paper.paperId).Nodup
    ∧ mergeSearchResults (gatherFromCompleted sub_queries.length completed) =
        multi_search search sub_queries limit
    ∧ ∀ pre e post,
        (sub_queries.map fun q => search q limit) = pre ++ .error e :: post →
        multi_search search sub_queries limit =
          mergeSearchResults (pre ++ .ok [] :: post) := by
  refine ⟨mergeSearchResults_nodup _, ?_, ?_⟩
  · have h := gather_eq (sub_queries.map fun q => search q limit) completed hperm
    rw [List.length_map] at h
    rw [multi_search, h]
  · intro pre e post hsplit
    rw [multi_search, hsplit]
    exact mergeSearchResults_error_irrelevant pre post e

/-! Concrete data used by the witnesses below. -/

def wPaperA : Paper := { paperId := "P1", title := "Paper one" }

def wPaperB : Paper := { paperId := "P2", title := "Paper two" }

def wSearch : String → Nat → Except String (List Paper) := fun q _ =>
  if q = "a" then .ok [wPaperA, wPaperB]
  else if q = "b" then .ok [wPaperB] else .error "boom"

def wCompleted : List (Nat × Except String (List Paper)) :=
  [(2, .error "boom"), (0, .ok [wPaperA, wPaperB]), (1, .ok [wPaperB])]

theorem multi_search_dedup_order_independent_witness :
    ((multi_search wSearch ["a", "b", "c"] 8).map Paper.paperId).Nodup
    ∧ mergeSearchResults (gatherFromCompleted 3 wCompleted) =
        multi_search wSearch ["a", "b", "c"] 8 := by
  have hperm : wCompleted.Perm
      ((["a", "b", "c"].map fun q => wSearch q 8).enum) := by
    show wCompleted.Perm
      [(0, .ok [wPaperA, wPaperB]), (1, .ok [wPaperB]), (2, .error "boom")]
    exact (List.perm_append_singleton _ _).symm
  have h := multi_search_dedup_order_independent wSearch ["a", "b", "c"] 8
    wCompleted hperm
  exact ⟨h.1, h.2.1⟩

/-! ## Smart fallback search (src/backend/app/routers/research_pipeline.py,
`search_with_fallback`, lines 456-516) -/

structure SearchPaperResult where
  paperId : String
  title : String
  abstract : Option String := none
  authors : List String := []
  year : Option Int := none
  citationCount : Option Int := none
  url : Option String := none
  pdfUrl : Option String := none

/-- Conversion from the internal `Paper` record to the response shape,
including `pdfUrl=p.openAccessPdf.get("url") if p.openAccessPdf else None`
(an empty or missing dict, and a non-string or missing `"url"` entry, all
yield `None`). -/
def toSearchPaperResult (p : Paper) : SearchPaperResult :=
  { paperId := p.paperId
    title := p.title
    abstract := p.abstract
    authors := p.authors.map Author.name
    year := p.year
    citationCount := p.citationCount
    url := p.url
    pdfUrl := jvAsOptStr (p.openAccessPdf.bind fun d => d.lookup "url") }

structure SWFResponse where
  papers : List SearchPaperResult
  total : Nat
  used_fallback : Bool
  original_keywords : String
  effective_keywords : String

/-- The `/search` endpoint with the smart-fallback mechanism.  The `search`
oracle stands for `search_papers_internal` (which never raises, returning
`[]` on any upstream failure).  Besides the response, the model returns the
trace of `(keywords, limit)` pairs passed to the search client, in call
order, so that "no broadened search call is attempted" is expressible. -/
def search_with_fallback (search : String → Nat → List Paper)
    (keywords : String) (limit : Nat) : SWFResponse × List (String × Nat) :=
  let original_keywords := pyStrip keywords
  let results := search original_keywords limit
  if results.length < 3 then
    let words := pySplitWS original_keywords
    if words.length > 3 then
      let broad_keywords := pyJoinSpace (words.take 3)
      let broad_results := search broad_keywords 15
      let merged := (addPapers broad_results
        (results, results.map Paper.paperId)).1
      ({ papers := merged.map toSearchPaperResult
         total := merged.length
         used_fallback := true
         original_keywords := original_keywords
         effective_keywords := broad_keywords },
       [(original_keywords, limit), (broad_keywords, 15)])
    else
      ({ papers := results.map toSearchPaperResult
         total := results.length
         used_fallback := false
         original_keywords := original_keywords
         effective_keywords := original_keywords },
       [(original_keywords, limit)])
  else
    ({ papers := results.map toSearchPaperResult
       total := results.length
       used_fallback := false
       original_keywords := original_keywords
       effective_keywords := original_keywords },
     [(original_keywords, limit)])

/-- Claim C2: `search_with_fallback` runs the initial search at the
requested limit; with fewer than 3 results and more than 3 whitespace
tokens it re-searches the first 3 tokens at limit 15 and merges the new
papers deduplicated by `paperId` (every paper of either search is
represented, and uniqueness of ids is preserved), setting
`used_fallback = true` and `effective_keywords` to the truncated string;
with 3 or more initial results, or at most 3 tokens, no broadened call is
made, `used_fallback = false` and `effective_keywords` equals the original
keywords. -/
theorem search_with_fallback_policy (search : String → Nat → List Paper)
    (keywords : String) (limit : Nat) :
    (3 ≤ (search (pyStrip keywords) limit).length →
      (search_with_fallback search keywords limit).1.used_fallback = false
      ∧ (search_with_fallback search keywords limit).1.effective_keywords =
          pyStrip keywords
      ∧ (search_with_fallback search keywords limit).1.papers =
          (search (pyStrip keywords) limit).map toSearchPaperResult
      ∧ (search_with_fallback search keywords limit).2 =
          [(pyStrip keywords, limit)])
    ∧ ((search (pyStrip keywords) limit).length < 3 →
        (pySplitWS (pyStrip keywords)).length ≤ 3 →
      (search_with_fallback search keywords limit).1.used_fallback = false
      ∧ (search_with_fallback search keywords limit).1.effective_keywords =
          pyStrip keywords
      ∧ (search_with_fallback search keywords limit).1.papers =
          (search (pyStrip keywords) limit).map toSearchPaperResult
      ∧ (search_with_fallback search keywords limit).2 =
          [(pyStrip keywords, limit)])
    ∧ ((search (pyStrip keywords) limit).length < 3 →
        3 < (pySplitWS (pyStrip keywords)).length →
      (search_with_fallback search keywords limit).1.used_fallback = true
      ∧ (search_with_fallback search keywords limit).1.effective_keywords =
          pyJoinSpace ((pySplitWS (pyStrip keywords)).take 3)
      ∧ (search_with_fallback search keywords limit).2 =
          [(pyStrip keywords, limit),
           (pyJoinSpace ((pySplitWS (pyStrip keywords)).take 3), 15)]
      ∧ (∀ p ∈ search (pyStrip keywords) limit,
          p.paperId ∈ (search_with_fallback search keywords limit).1.papers.map
            SearchPaperResult.paperId)
      ∧ (∀ p ∈ search (pyJoinSpace
            ((pySplitWS (pyStrip keywords)).take 3)) 15,
          p.paperId ∈ (search_with_fallback search keywords limit).1.papers.map
            SearchPaperResult.paperId)
      ∧ (((search (pyStrip keywords) limit).map Paper.paperId).Nodup →
          ((search_with_fallback search keywords limit).1.papers.map
            SearchPaperResult.paperId).Nodup)) := by
  have hconv : ∀ l : List Paper,
      (l.map toSearchPaperResult).map SearchPaperResult.paperId =
        l.map Paper.paperId := by
    intro l
    rw [List.map_map]
    rfl
  refine ⟨fun h3 => ?_, fun hlt hle => ?_, fun hlt hgt => ?_⟩
  · have hcond : ¬ (search (pyStrip keywords) limit).length < 3 := by omega
    simp only [search_with_fallback, if_neg hcond]
    exact ⟨trivial, trivial, trivial, trivial⟩
  · have hcond2 : ¬ (pySplitWS (pyStrip keywords)).length > 3 := by omega
    simp only [search_with_fallback, if_pos hlt, if_neg hcond2]
    exact ⟨trivial, trivial, trivial, trivial⟩
  · simp only [search_with_fallback, if_pos hlt, if_pos hgt]
    set results := search (pyStrip keywords) limit with hres
    set broad := search (pyJoinSpace
      ((pySplitWS (pyStrip keywords)).take 3)) 15 with hbroad
    have hacc : ∀ x, x ∈ (results, results.map Paper.paperId).2 ↔
        x ∈ (results, results.map Paper.paperId).1.map Paper.paperId := by
      intro x; rfl
    obtain ⟨h1, h2, h3, h4⟩ := addPapers_spec broad
      (results, results.map Paper.paperId) hacc
    refine ⟨trivial, trivial, trivial, ?_, ?_, ?_⟩
    · intro p hp
      obtain ⟨t, ht⟩ := h2
      rw [hconv, ht, List.map_append]
      exact List.mem_append_left _ (List.mem_map.mpr ⟨p, hp, rfl⟩)
    · intro p hp
      rw [hconv]
      exact h3 p hp
    · intro hnd
      rw [hconv]
      exact h4 hnd

def wFallbackSearch : String → Nat → List Paper := fun q _ =>
  if q = "alpha beta gamma delta" then [wPaperA]
  else if q = "alpha beta gamma" then [wPaperA, wPaperB] else []

/-- Witness for claim C2's theorem: a concrete oracle returning a single
paper for the specific query and two more for the broadened one. -/
theorem search_with_fallback_policy_witness :
    (search_with_fallback wFallbackSearch "alpha beta gamma delta" 10).1.used_fallback
      = true
    ∧ (search_with_fallback wFallbackSearch "alpha beta gamma delta" 10).1.effective_keywords
      = "alpha beta gamma"
    ∧ (search_with_fallback wFallbackSearch "alpha beta gamma delta" 10).2 =
        [("alpha beta gamma delta", 10), ("alpha beta gamma", 15)] := by
  have h := (search_with_fallback_policy wFallbackSearch
    "alpha beta gamma delta" 10).2.2 (by decide) (by decide)
  refine ⟨h.1, ?_, ?_⟩
  · rw [h.2.1]; decide
  · rw [h.2.2.1]; decide

/-! ## Smart truncation (src/backend/app/services/content_fetcher.py,
`_smart_truncate`, lines 124-161)

The five `skip_patterns` regexes are embedded as specialised matchers with
Python `re` semantics (leftmost match, greedy `#{1,3}` and `s?` with
backtracking, lazy `[\s\S]*?` bounded by a `(?=#{1,3}|\Z)` lookahead, and
IGNORECASE on the literal words).  `re.sub(p, "", text)` is `scanSub`. -/

def MAX_CONTENT_LENGTH : Nat := 15000

/-- Case-insensitive match of a literal lowercase word at the head of the
input; yields the remainder after the word. -/
def matchWordCI : Chars → Chars → Option Chars
  | [], s => some s
  | _ :: _, [] => none
  | w :: ws, c :: cs => if c.toLower = w then matchWordCI ws cs else none

/-- Regex `\s*`: greedy whitespace skip (never needs to backtrack here
because it is always followed by a non-whitespace literal or by a pattern
that succeeds wherever the run ends). -/
def skipWS (s : Chars) : Chars := s.dropWhile Char.isWhitespace

/-- Regex `s?` (IGNORECASE) with backtracking: prefer consuming an optional
letter s before the continuation `k`, falling back to not consuming it. -/
def optS (k : Chars → Option Chars) : Chars → Option Chars
  | [] => k []
  | c :: cs =>
    if c.toLower = 's' then (k cs).orElse fun _ => k (c :: cs)
    else k (c :: cs)

/-- Regex `\s*\n`: greedily consume whitespace up to and including the last
newline of the leading whitespace run; fail when the run has none. -/
def matchWSNewline (s : Chars) : Option Chars :=
  let run := s.takeWhile Char.isWhitespace
  let rest := s.drop run.length
  let after := run.reverse.takeWhile (fun c => c != '\n')
  if after.length = run.length then none
  else some (after.reverse ++ rest)

/-- Regex `[\s\S]*?(?=#{1,3}|\Z)`: lazily consume up to (excluding) the
next hash character, or to the end of the input. -/
def lazyToHash (s : Chars) : Chars := s.dropWhile (fun c => c != '#')

/-- Regex `#{1,3}` with greedy backtracking into the continuation `k`. -/
def matchHashes (k : Chars → Option Chars) : Chars → Option Chars
  | [] => none
  | c :: s1 =>
    if c = '#' then
      match s1 with
      | c1 :: s2 =>
        if c1 = '#' then
          match s2 with
          | c2 :: s3 =>
            if c2 = '#' then (k s3).orElse fun _ => (k s2).orElse fun _ => k s1
            else (k s2).orElse fun _ => k s1
          | [] => (k s2).orElse fun _ => k s1
        else k s1
      | [] => k s1
    else none

/-- `r"#{1,3}\s*references?\s*\n[\s\S]*"`: a match swallows the rest of the
document. -/
def matchReferences (s : Chars) : Option Chars :=
  matchHashes (fun r =>
    (matchWordCI "reference".data (skipWS r)).bind fun r2 =>
      optS (fun r3 => (matchWSNewline r3).map fun _ => ([] : Chars)) r2) s

/-- `r"#{1,3}\s*acknowledgments?\s*\n[\s\S]*?(?=#{1,3}|\Z)"`. -/
def matchAcknowledgments (s : Chars) : Option Chars :=
  matchHashes (fun r =>
    (matchWordCI "acknowledgment".data (skipWS r)).bind fun r2 =>
      optS (fun r3 => (matchWSNewline r3).map lazyToHash) r2) s

/-- `r"#{1,3}\s*supplementary\s*[\s\S]*?(?=#{1,3}|\Z)"`. -/
def matchSupplementary (s : Chars) : Option Chars :=
  matchHashes (fun r =>
    (matchWordCI "supplementary".data (skipWS r)).map fun r2 =>
      lazyToHash (skipWS r2)) s

/-- `r"#{1,3}\s*funding\s*[\s\S]*?(?=#{1,3}|\Z)"`. -/
def matchFunding (s : Chars) : Option Chars :=
  matchHashes (fun r =>
    (matchWordCI "funding".data (skipWS r)).map fun r2 =>
      lazyToHash (skipWS r2)) s

/-- `r"#{1,3}\s*author\s*contributions?\s*[\s\S]*?(?=#{1,3}|\Z)"`. -/
def matchAuthorContributions (s : Chars) : Option Chars :=
  matchHashes (fun r =>
    (matchWordCI "author".data (skipWS r)).bind fun r2 =>
      (matchWordCI "contribution".data (skipWS r2)).bind fun r3 =>
        optS (fun r4 => some (lazyToHash (skipWS r4))) r3) s

/-- `re.sub(pattern, "", text)`: delete every non-overlapping match,
scanning left to right.  Every section pattern consumes at least one
character (it starts with a mandatory hash), so the guard on a
non-shrinking remainder never fires; it only serves termination. -/
def scanSub (m : Chars → Option Chars) : Chars → Chars
  | [] => []
  | c :: rest =>
    match m (c :: rest) with
    | some r =>
      if h : r.length < rest.length + 1 then scanSub m r
      else c :: scanSub m rest
    | none => c :: scanSub m rest
termination_by s => s.length
decreasing_by
  all_goals simp only [List.length_cons]
  all_goals omega

/-- The five `re.sub` passes of `_smart_truncate`, in source order. -/
def stripSkipSections (s : Chars) : Chars :=
  scanSub matchAuthorContributions
    (scanSub matchFunding
      (scanSub matchSupplementary
        (scanSub matchAcknowledgments
          (scanSub matchReferences s))))

/-- `re.sub(r"\n{3,}", "\n\n", text)`: collapse runs of three or more
newlines to two. -/
def collapseNewlines : Chars → Chars
  | [] => []
  | c :: rest =>
    if c = '\n' then
      let run := rest.takeWhile (fun ch => ch == '\n')
      (if 3 ≤ run.length + 1 then ['\n', '\n'] else c :: run)
        ++ collapseNewlines (rest.drop run.length)
    else c :: collapseNewlines rest
termination_by s => s.length
decreasing_by
  all_goals simp only [List.length_cons, List.length_drop]
  all_goals omega

def TRUNCATION_MARKER : Chars :=
  "\n\n[... Content truncated for analysis ...]".data

def MARKER_CORE : Chars :=
  "[... Content truncated for analysis ...]".data

/-- `_smart_truncate`: short text is returned unchanged; long text is put
through the section-stripping passes and the newline collapse, then, when
still over budget, hard-truncated at the budget with the marker appended;
the final result is stripped of outer whitespace. -/
def smart_truncate (content : Chars) : Chars :=
  if content.length ≤ MAX_CONTENT_LENGTH then content
  else
    let processed := collapseNewlines (stripSkipSections content)
    if MAX_CONTENT_LENGTH < processed.length then
      pyStripChars (processed.take MAX_CONTENT_LENGTH ++ TRUNCATION_MARKER)
    else
      pyStripChars processed

/-! ### Properties of the truncation -/

theorem pyStripChars_length_le (s : Chars) :
    (pyStripChars s).length ≤ s.length := by
  unfold pyStripChars
  rw [List.length_reverse]
  calc ((s.dropWhile Char.isWhitespace).reverse.dropWhile
          Char.isWhitespace).length
      ≤ (s.dropWhile Char.isWhitespace).reverse.length :=
        (List.dropWhile_sublist _).length_le
    _ = (s.dropWhile Char.isWhitespace).length := List.length_reverse _
    _ ≤ s.length := (List.dropWhile_sublist _).length_le

theorem dropWhileWS_suffix (pre core : Chars)
    (hhead : ∀ c, core.head? = some c → c.isWhitespace = false)
    (hne : core ≠ []) :
    core <:+ (pre ++ core).dropWhile Char.isWhitespace := by
  induction pre with
  | nil =>
    cases core with
    | nil => exact absurd rfl hne
    | cons h t =>
      have hh := hhead h rfl
      simp only [List.nil_append, List.dropWhile_cons, hh, Bool.false_eq_true,
        if_false]
      exact List.suffix_refl _
  | cons c pre ih =>
    by_cases hc : c.isWhitespace
    · simpa [List.dropWhile_cons, hc] using ih
    · simp only [List.cons_append, List.dropWhile_cons, hc, Bool.false_eq_true,
        if_false]
      exact ⟨c :: pre, rfl⟩

theorem backStripWS_id (l : Chars)
    (hlast : ∀ c, l.reverse.head? = some c → c.isWhitespace = false) :
    (l.reverse.dropWhile Char.isWhitespace).reverse = l := by
  cases hrev : l.reverse with
  | nil =>
    have hl : l = [] := by
      have h2 := congrArg List.reverse hrev
      simpa using h2
    simp [hl]
  | cons c t =>
    have hc := hlast c (by rw [hrev]; rfl)
    rw [List.dropWhile_cons]
    simp only [hc, Bool.false_eq_true, if_false]
    have h2 := congrArg List.reverse hrev
    rw [List.reverse_reverse] at h2
    exact h2.symm

theorem pyStripChars_keeps_suffix (pre core : Chars)
    (hne : core ≠ [])
    (hhead : ∀ c, core.head? = some c → c.isWhitespace = false)
    (hlast : ∀ c, core.reverse.head? = some c → c.isWhitespace = false) :
    core <:+ pyStripChars (pre ++ core) := by
  obtain ⟨b, hb⟩ := dropWhileWS_suffix pre core hhead hne
  unfold pyStripChars
  rw [← hb]
  have hcne : core.reverse ≠ [] := by simpa using hne
  rw [backStripWS_id (b ++ core) ?hl]
  case hl =>
    intro c hcek
    apply hlast c
    rwa [List.reverse_append, List.head?_append_of_ne_nil _ hcne] at hcek
  exact ⟨b, rfl⟩

theorem pyStripChars_id (l : Chars)
    (hhead : ∀ c, l.head? = some c → c.isWhitespace = false)
    (hlast : ∀ c, l.reverse.head? = some c → c.isWhitespace = false) :
    pyStripChars l = l := by
  unfold pyStripChars
  have hfront : l.dropWhile Char.isWhitespace = l := by
    cases l with
    | nil => rfl
    | cons h t =>
      have hh := hhead h rfl
      simp [List.dropWhile_cons, hh]
  rw [hfront, backStripWS_id l hlast]

theorem matchHashes_not_hash (k : Chars → Option Chars) (c : Char)
    (rest : Chars) (hc : c ≠ '#') : matchHashes k (c :: rest) = none := by
  simp [matchHashes, hc]

theorem scanSub_id (m : Chars → Option Chars)
    (hm : ∀ c rest, c ≠ '#' → m (c :: rest) = none)
    (s : Chars) (hs : '#' ∉ s) : scanSub m s = s := by
  induction s with
  | nil => simp [scanSub]
  | cons c rest ih =>
    have hc : c ≠ '#' := fun h => hs (h ▸ List.mem_cons_self c rest)
    have hrest : '#' ∉ rest := fun h => hs (List.mem_cons_of_mem c h)
    rw [scanSub, hm c rest hc, ih hrest]

theorem stripSkipSections_no_hash (s : Chars) (hs : '#' ∉ s) :
    stripSkipSections s = s := by
  have hr : ∀ c rest, c ≠ '#' → matchReferences (c :: rest) = none :=
    fun c rest hc => matchHashes_not_hash _ c rest hc
  have ha : ∀ c rest, c ≠ '#' → matchAcknowledgments (c :: rest) = none :=
    fun c rest hc => matchHashes_not_hash _ c rest hc
  have hsup : ∀ c rest, c ≠ '#' → matchSupplementary (c :: rest) = none :=
    fun c rest hc => matchHashes_not_hash _ c rest hc
  have hf : ∀ c rest, c ≠ '#' → matchFunding (c :: rest) = none :=
    fun c rest hc => matchHashes_not_hash _ c rest hc
  have hac : ∀ c rest, c ≠ '#' → matchAuthorContributions (c :: rest) = none :=
    fun c rest hc => matchHashes_not_hash _ c rest hc
  unfold stripSkipSections
  rw [scanSub_id _ hr s hs, scanSub_id _ ha s hs, scanSub_id _ hsup s hs,
    scanSub_id _ hf s hs, scanSub_id _ hac s hs]

theorem collapseNewlines_no_newline (s : Chars) (hs : '\n' ∉ s) :
    collapseNewlines s = s := by
  induction s with
  | nil => simp [collapseNewlines]
  | cons c rest ih =>
    have hc : c ≠ '\n' := fun h => hs (h ▸ List.mem_cons_self c rest)
    have hrest : '\n' ∉ rest := fun h => hs (List.mem_cons_of_mem c h)
    rw [collapseNewlines, if_neg hc, ih hrest]

theorem marker_decomp : TRUNCATION_MARKER = '\n' :: '\n' :: MARKER_CORE := by
  decide

theorem markerCore_head_not_ws :
    ∀ c, MARKER_CORE.head? = some c → c.isWhitespace = false := by
  intro c hc
  rw [show MARKER_CORE.head? = some '[' by decide] at hc
  simp only [Option.some.injEq] at hc
  rw [← hc]
  decide

theorem markerCore_last_not_ws :
    ∀ c, MARKER_CORE.reverse.head? = some c → c.isWhitespace = false := by
  intro c hc
  rw [show MARKER_CORE.reverse.head? = some ']' by decide] at hc
  simp only [Option.some.injEq] at hc
  rw [← hc]
  decide

/-- Claim C3 (amended): input at most the 15000-character budget is
returned unchanged; on longer input the boilerplate-section passes and the
newline collapse run first, the output never exceeds the budget plus the
marker length, and whenever the processed text still exceeds the budget the
output ends with the marker text "[... Content truncated for analysis ...]"
(the code marker literal; the final strip only removes outer whitespace,
which never reaches past the marker text). -/
theorem smart_truncate_policy (content : Chars) :
    (content.length ≤ MAX_CONTENT_LENGTH → smart_truncate content = content)
    ∧ (MAX_CONTENT_LENGTH < content.length →
        (smart_truncate content).length ≤
          MAX_CONTENT_LENGTH + TRUNCATION_MARKER.length)
    ∧ (MAX_CONTENT_LENGTH < content.length →
        MAX_CONTENT_LENGTH <
          (collapseNewlines (stripSkipSections content)).length →
        MARKER_CORE <:+ smart_truncate content) := by
  refine ⟨fun hshort => ?_, fun hlong => ?_, fun hlong hproc => ?_⟩
  · simp [smart_truncate, hshort]
  · have hnotle : ¬ content.length ≤ MAX_CONTENT_LENGTH := by omega
    simp only [smart_truncate, if_neg hnotle]
    by_cases hp : MAX_CONTENT_LENGTH <
        (collapseNewlines (stripSkipSections content)).length
    · rw [if_pos hp]
      calc (pyStripChars _).length
          ≤ ((collapseNewlines (stripSkipSections content)).take
              MAX_CONTENT_LENGTH ++ TRUNCATION_MARKER).length :=
            pyStripChars_length_le _
        _ ≤ MAX_CONTENT_LENGTH + TRUNCATION_MARKER.length := by
            rw [List.length_append]
            have hta := List.length_take_le MAX_CONTENT_LENGTH
              (collapseNewlines (stripSkipSections content))
            omega
    · rw [if_neg hp]
      have h1 := pyStripChars_length_le
        (collapseNewlines (stripSkipSections content))
      omega
  · have hnotle : ¬ content.length ≤ MAX_CONTENT_LENGTH := by omega
    simp only [smart_truncate, if_neg hnotle]
    rw [if_pos hproc, marker_decomp]
    have hassoc : (collapseNewlines (stripSkipSections content)).take
        MAX_CONTENT_LENGTH ++ '\n' :: '\n' :: MARKER_CORE =
        ((collapseNewlines (stripSkipSections content)).take
          MAX_CONTENT_LENGTH ++ ['\n', '\n']) ++ MARKER_CORE := by
      simp
    rw [hassoc]
    exact pyStripChars_keeps_suffix _ MARKER_CORE (by decide)
      markerCore_head_not_ws markerCore_last_not_ws

def bigA : Chars := List.replicate 15001 'a'

theorem bigA_no_hash : '#' ∉ bigA := by
  intro hmem
  exact absurd (List.eq_of_mem_replicate hmem) (by decide)

theorem bigA_no_newline : '\n' ∉ bigA := by
  intro hmem
  exact absurd (List.eq_of_mem_replicate hmem) (by decide)

theorem stripSkip_bigA : stripSkipSections bigA = bigA :=
  stripSkipSections_no_hash bigA bigA_no_hash

theorem bigA_length : bigA.length = 15001 := by
  rw [bigA, List.length_replicate]

theorem smart_truncate_bigA :
    smart_truncate bigA = List.replicate 15000 'a' ++ TRUNCATION_MARKER := by
  have hcollapse : collapseNewlines (stripSkipSections bigA) = bigA := by
    rw [stripSkip_bigA]
    exact collapseNewlines_no_newline bigA bigA_no_newline
  simp only [smart_truncate, hcollapse]
  rw [if_neg (by rw [bigA_length]; decide), if_pos (by rw [bigA_length]; decide)]
  have htake : List.take MAX_CONTENT_LENGTH bigA = List.replicate 15000 'a' := by
    rw [bigA, List.take_replicate]
    norm_num [MAX_CONTENT_LENGTH]
  rw [htake]
  apply pyStripChars_id
  · intro c hch
    have heq : List.replicate 15000 'a' = 'a' :: List.replicate 14999 'a' := by
      rw [show (15000 : Nat) = 14999 + 1 by norm_num, List.replicate_succ]
    rw [heq] at hch
    simp only [List.cons_append, List.head?_cons, Option.some.injEq] at hch
    rw [← hch]
    decide
  · intro c hch
    rw [List.reverse_append,
      List.head?_append_of_ne_nil _ (by decide)] at hch
    have hm : TRUNCATION_MARKER.reverse.head? = some ']' := by decide
    rw [hm] at hch
    simp only [Option.some.injEq] at hch
    rw [← hch]
    decide

/-- Claim C3 counterexample: on an input of 15001 letters the truncated
output does not end with the marker text stated by the claim,
"[... content truncated ...]"; the code appends
"\n\n[... Content truncated for analysis ...]" instead. -/
theorem smart_truncate_claim_marker_counterexample :
    ¬ ("[... content truncated ...]".data <:+ smart_truncate bigA) := by
  rw [smart_truncate_bigA]
  intro hsuf
  have hM : TRUNCATION_MARKER <:+
      List.replicate 15000 'a' ++ TRUNCATION_MARKER :=
    List.suffix_append _ _
  have hle : "[... content truncated ...]".data.length ≤
      TRUNCATION_MARKER.length := by decide
  have hcontra := List.suffix_of_suffix_length_le hsuf hM hle
  revert hcontra
  decide

/-- Witness for claim C3 at a concrete long input. -/
theorem smart_truncate_policy_witness :
    MARKER_CORE <:+ smart_truncate bigA
    ∧ (smart_truncate bigA).length ≤
        MAX_CONTENT_LENGTH + TRUNCATION_MARKER.length := by
  have hlen : MAX_CONTENT_LENGTH < bigA.length := by
    rw [bigA_length]; decide
  have hproc : MAX_CONTENT_LENGTH <
      (collapseNewlines (stripSkipSections bigA)).length := by
    rw [stripSkip_bigA, collapseNewlines_no_newline bigA bigA_no_newline]
    exact hlen
  exact ⟨(smart_truncate_policy bigA).2.2 hlen hproc,
    (smart_truncate_policy bigA).2.1 hlen⟩

/-! ## Reader-service fetch (src/backend/app/services/content_fetcher.py,
`_fetch_via_jina`, lines 76-121, and `fetch_paper_content`, lines 16-73) -/

def JINA_READER_URL : String := "https://r.jina.ai/"

structure JinaResult where
  success : Bool
  content : Chars
deriving DecidableEq, Repr

/-- The possible outcomes of the HTTP GET against the reader service. -/
inductive JinaHttp where
  | resp (status : Nat) (body : Chars)
  | timeout
  | exn (msg : String)
deriving DecidableEq, Repr

/-- `_fetch_via_jina`: a fetch succeeds only on HTTP 200 with a body longer
than 200 characters; every other outcome (200 with a short body, non-200
status, timeout, any other exception) yields
`{"success": False, "content": ""}` rather than raising. -/
def fetch_via_jina (outcome : JinaHttp) : JinaResult :=
  match outcome with
  | .resp status body =>
    if status = 200 then
      if 200 < body.length then { success := true, content := body }
      else { success := false, content := [] }
    else { success := false, content := [] }
  | .timeout => { success := false, content := [] }
  | .exn _ => { success := false, content := [] }

/-- The per-paper content block built by the fetcher.  `content` is a
Python string-or-`None` value (`none` can only arise in the batch path for
a paper whose abstract key holds `None`). -/
structure ContentResult where
  content_type : String
  content : Option Chars
  source : String
  word_count : Nat
deriving DecidableEq, Repr

/-- The PDF branch of `fetch_paper_content`: attempted only when a
non-empty PDF URL is present, producing a block on fetch success. -/
def pdfAttempt (http : String → JinaHttp) (pdf_url : Option String) :
    Option ContentResult :=
  match pdf_url with
  | some pu =>
    if pu = "" then none
    else
      let result := fetch_via_jina (http (JINA_READER_URL ++ pu))
      if result.success then
        let processed := smart_truncate result.content
        some { content_type :=
                 if 2000 < processed.length then "full_text" else "partial"
               content := some processed
               source := "jina_pdf"
               word_count := pyWordCount processed }
      else none
  | none => none

/-- The landing-page branch of `fetch_paper_content`: attempted only when
the paper URL is non-empty, always marked `partial` on success. -/
def pageAttempt (http : String → JinaHttp) (paper_url : String) :
    Option ContentResult :=
  if paper_url = "" then none
  else
    let result := fetch_via_jina (http (JINA_READER_URL ++ paper_url))
    if result.success then
      let processed := smart_truncate result.content
      some { content_type := "partial"
             content := some processed
             source := "jina_page"
             word_count := pyWordCount processed }
    else none

/-- `fetch_paper_content`: try the PDF URL through the reader service, then
the paper landing page, then fall back to the abstract.  The `http` oracle
maps the full reader-service URL to the HTTP outcome. -/
def fetch_paper_content (http : String → JinaHttp) (paper_url : String)
    (pdf_url : Option String) (abstract : Option Chars) : ContentResult :=
  match pdfAttempt http pdf_url with
  | some r => r
  | none =>
    match pageAttempt http paper_url with
    | some r => r
    | none =>
      { content_type := "abstract"
        content := some (pyOrChars abstract "No content available.".data)
        source := "abstract"
        word_count := pyWordCount (pyOrChars abstract []) }

theorem pdfAttempt_none (http : String → JinaHttp) (pdf_url : Option String)
    (hfail : ∀ pu, pdf_url = some pu → pu ≠ "" →
      (fetch_via_jina (http (JINA_READER_URL ++ pu))).success = false) :
    pdfAttempt http pdf_url = none := by
  match pdf_url with
  | none => rfl
  | some pu =>
    by_cases hpu : pu = ""
    · simp [pdfAttempt, hpu]
    · simp [pdfAttempt, if_neg hpu, hfail pu rfl hpu]

/-- Claim C4: the fallback chain of `fetch_paper_content`, first success
winning: (a) a present, non-empty PDF URL whose reader fetch succeeds gives
the processed text, marked `full_text` when longer than 2000 characters and
`partial` otherwise; (b) otherwise a non-empty paper URL whose fetch
succeeds gives the processed text marked `partial`; (c) otherwise the
result is `abstract`-typed, carrying the provided abstract text or the
literal "No content available." when the abstract is absent (or empty). -/
theorem fetch_paper_content_chain (http : String → JinaHttp)
    (paper_url : String) (pdf_url : Option String) (abstract : Option Chars) :
    (∀ pu, pdf_url = some pu → pu ≠ "" →
      (fetch_via_jina (http (JINA_READER_URL ++ pu))).success = true →
      fetch_paper_content http paper_url pdf_url abstract =
        { content_type :=
            if 2000 < (smart_truncate
                (fetch_via_jina (http (JINA_READER_URL ++ pu))).content).length
            then "full_text" else "partial"
          content := some (smart_truncate
            (fetch_via_jina (http (JINA_READER_URL ++ pu))).content)
          source := "jina_pdf"
          word_count := pyWordCount (smart_truncate
            (fetch_via_jina (http (JINA_READER_URL ++ pu))).content) })
    ∧ ((∀ pu, pdf_url = some pu → pu ≠ "" →
          (fetch_via_jina (http (JINA_READER_URL ++ pu))).success = false) →
        paper_url ≠ "" →
        (fetch_via_jina (http (JINA_READER_URL ++ paper_url))).success = true →
        fetch_paper_content http paper_url pdf_url abstract =
          { content_type := "partial"
            content := some (smart_truncate
              (fetch_via_jina (http (JINA_READER_URL ++ paper_url))).content)
            source := "jina_page"
            word_count := pyWordCount (smart_truncate
              (fetch_via_jina (http (JINA_READER_URL ++ paper_url))).content) })
    ∧ ((∀ pu, pdf_url = some pu → pu ≠ "" →
          (fetch_via_jina (http (JINA_READER_URL ++ pu))).success = false) →
        (paper_url = "" ∨
          (fetch_via_jina (http (JINA_READER_URL ++ paper_url))).success =
            false) →
        fetch_paper_content http paper_url pdf_url abstract =
          { content_type := "abstract"
            content := some (pyOrChars abstract "No content available.".data)
            source := "abstract"
            word_count := pyWordCount (pyOrChars abstract []) }) := by
  refine ⟨?_, ?_, ?_⟩
  · rintro pu rfl hne hsucc
    simp only [fetch_paper_content, pdfAttempt, if_neg hne, hsucc, if_true]
  · intro hfail hpage hsucc
    simp only [fetch_paper_content, pdfAttempt_none http pdf_url hfail,
      pageAttempt, if_neg hpage, hsucc, if_true]
  · intro hfail hpage
    have hpn : pageAttempt http paper_url = none := by
      rcases hpage with hpe | hpf
      · simp [pageAttempt, hpe]
      · by_cases hpe : paper_url = ""
        · simp [pageAttempt, hpe]
        · simp [pageAttempt, if_neg hpe, hpf]
    simp only [fetch_paper_content, pdfAttempt_none http pdf_url hfail, hpn]

def wLongBody : Chars := List.replicate 300 'b'

def wHttp : String → JinaHttp := fun u =>
  if u = "https://r.jina.ai/pdf-url" then .resp 200 "tiny".data
  else if u = "https://r.jina.ai/page-url" then .resp 200 wLongBody
  else .timeout

set_option maxRecDepth 4000 in
/-- Witness for claim C4: the PDF fetch returns a 200 with a too-short
body, so the chain falls through to the paper page. -/
theorem fetch_paper_content_chain_witness :
    fetch_paper_content wHttp "page-url" (some "pdf-url") none =
      { content_type := "partial"
        content := some wLongBody
        source := "jina_page"
        word_count := 1 } := by
  have h := (fetch_paper_content_chain wHttp "page-url" (some "pdf-url")
      none).2.1 ?hfail (by decide) ?hsucc
  case hfail =>
    intro pu hpu hne
    cases hpu
    decide
  case hsucc => decide
  rw [h]
  decide

/-- Claim C10: a reader fetch counts successful exactly when the HTTP
status is 200 and the body is strictly longer than 200 characters; a 200
response with a body of at most 200 characters, a non-200 status, a
timeout, and any other exception all yield the failure result with empty
content; and a failed PDF fetch makes `fetch_paper_content` behave exactly
as if no PDF URL had been given, falling through to the next source. -/
theorem fetch_via_jina_success_policy (outcome : JinaHttp) :
    ((fetch_via_jina outcome).success = true ↔
      ∃ body, outcome = .resp 200 body ∧ 200 < body.length)
    ∧ (∀ body, outcome = .resp 200 body → 200 < body.length →
        fetch_via_jina outcome = { success := true, content := body })
    ∧ ((fetch_via_jina outcome).success = false →
        fetch_via_jina outcome = { success := false, content := [] })
    ∧ ((fetch_via_jina outcome).success = false →
        ∀ http paper_url pu abstract,
          http (JINA_READER_URL ++ pu) = outcome →
          fetch_paper_content http paper_url (some pu) abstract =
            fetch_paper_content http paper_url none abstract) := by
  refine ⟨?_, ?_, ?_, ?_⟩
  · constructor
    · intro hsucc
      match outcome with
      | .resp status body =>
        by_cases hst : status = 200
        · subst hst
          by_cases hlen : 200 < body.length
          · exact ⟨body, rfl, hlen⟩
          · simp [fetch_via_jina, if_neg hlen] at hsucc
        · simp [fetch_via_jina, hst] at hsucc
      | .timeout => simp [fetch_via_jina] at hsucc
      | .exn msg => simp [fetch_via_jina] at hsucc
    · rintro ⟨body, rfl, hlen⟩
      simp [fetch_via_jina, hlen]
  · rintro body rfl hlen
    simp [fetch_via_jina, hlen]
  · intro hfail
    match outcome with
    | .resp status body =>
      by_cases hst : status = 200
      · subst hst
        by_cases hlen : 200 < body.length
        · simp [fetch_via_jina, hlen] at hfail
        · simp [fetch_via_jina, hlen]
      · simp [fetch_via_jina, hst]
    | .timeout => rfl
    | .exn msg => rfl
  · intro hfail http paper_url pu abstract hurl
    have hpa : pdfAttempt http (some pu) = none := by
      apply pdfAttempt_none
      intro pv hpv hne
      cases hpv
      rw [hurl]
      exact hfail
    have hpb : pdfAttempt http none = none := rfl
    rw [fetch_paper_content, fetch_paper_content, hpa, hpb]

set_option maxRecDepth 4000 in
/-- Witness for claim C10: a 200 response whose body has exactly 200
characters is a failure. -/
theorem fetch_via_jina_success_policy_witness :
    fetch_via_jina (.resp 200 (List.replicate 200 'x')) =
      { success := false, content := [] } := by
  have h := (fetch_via_jina_success_policy
      (.resp 200 (List.replicate 200 'x'))).2.2.1 (by decide)
  exact h

/-! ## Batch fetch (`fetch_multiple_papers_content`, lines 164-211) -/

/-- The paper dictionaries handed to the batch fetcher.  `abstract` mirrors
the two levels of `dict.get`: the outer `Option` is key presence, the inner
one a present-but-`None` value.  For `url`/`pdfUrl` a `None` value and a
missing key behave identically downstream (both are falsy and only feed
`fetch_paper_content`), so they are collapsed into one `Option`. -/
structure PaperRec where
  paperId : String := ""
  title : String := "Unknown"
  abstract : Option (Option Chars) := none
  authors : List String := []
  year : Option Int := none
  citationCount : Option Int := none
  url : Option String := none
  pdfUrl : Option String := none
deriving DecidableEq, Repr

/-- The abstract-only content block given to papers beyond `max_papers`:
`paper.get("abstract", "No abstract available.")` substitutes the literal
only when the key is missing (a present `None` value is carried verbatim),
and the word count tokenizes `paper.get("abstract") or ""`. -/
def abstractOnlyBlock (p : PaperRec) : ContentResult :=
  { content_type := "abstract"
    content := match p.abstract with
      | none => some "No abstract available.".data
      | some v => v
    source := "abstract"
    word_count := pyWordCount (pyOrChars p.abstract.join []) }

/-- `fetch_multiple_papers_content`: live fetches for the first
`max_papers` papers, abstract-only blocks for the rest; each paper is
returned (in order) paired with its content block. -/
def fetch_multiple_papers_content (http : String → JinaHttp)
    (papers : List PaperRec) (max_papers : Nat) :
    List (PaperRec × ContentResult) :=
  (papers.take max_papers).map (fun p =>
    (p, fetch_paper_content http (p.url.getD "") p.pdfUrl p.abstract.join))
  ++ (papers.drop max_papers).map (fun p => (p, abstractOnlyBlock p))

/-- Claim C5: with `M > N` papers and `max_papers = N`, the batch fetch
attempts live fetches only for the first `N` papers; each of the remaining
`M - N` papers receives an `abstract`-typed block whose content is its
abstract field verbatim (or the literal fallback when the key is absent)
with whitespace word count; the output has length `M` and preserves input
order. -/
theorem fetch_multiple_papers_tail_policy (http : String → JinaHttp)
    (papers : List PaperRec) (max_papers : Nat)
    (hover : max_papers < papers.length) :
    (fetch_multiple_papers_content http papers max_papers).length =
        papers.length
    ∧ (fetch_multiple_papers_content http papers max_papers).map Prod.fst =
        papers
    ∧ (fetch_multiple_papers_content http papers max_papers).take max_papers =
        (papers.take max_papers).map (fun p =>
          (p, fetch_paper_content http (p.url.getD "") p.pdfUrl
            p.abstract.join))
    ∧ (fetch_multiple_papers_content http papers max_papers).drop max_papers =
        (papers.drop max_papers).map (fun p => (p, abstractOnlyBlock p))
    ∧ ∀ pc ∈ (fetch_multiple_papers_content http papers
        max_papers).drop max_papers,
        pc.2.content_type = "abstract"
        ∧ pc.2.content = (match pc.1.abstract with
            | none => some "No abstract available.".data
            | some v => v)
        ∧ pc.2.word_count = pyWordCount (pyOrChars pc.1.abstract.join []) := by
  have hheadlen : ((papers.take max_papers).map (fun p =>
      (p, fetch_paper_content http (p.url.getD "") p.pdfUrl
        p.abstract.join))).length = max_papers := by
    rw [List.length_map, List.length_take]
    exact Nat.min_eq_left (Nat.le_of_lt hover)
  refine ⟨?_, ?_, ?_, ?_, ?_⟩
  · simp only [fetch_multiple_papers_content, List.length_append,
      List.length_map, List.length_take, List.length_drop]
    omega
  · simp only [fetch_multiple_papers_content, List.map_append,
      List.map_map]
    have h1 : (Prod.fst ∘ fun p : PaperRec =>
        (p, fetch_paper_content http (p.url.getD "") p.pdfUrl
          p.abstract.join)) = id := rfl
    have h2 : (Prod.fst ∘ fun p : PaperRec => (p, abstractOnlyBlock p)) =
        id := rfl
    rw [h1, h2, List.map_id, List.map_id, List.take_append_drop]
  · rw [fetch_multiple_papers_content, List.take_left' hheadlen]
  · rw [fetch_multiple_papers_content, List.drop_left' hheadlen]
  · intro pc hpc
    rw [fetch_multiple_papers_content, List.drop_left' hheadlen] at hpc
    obtain ⟨p, _, rfl⟩ := List.mem_map.mp hpc
    exact ⟨rfl, rfl, rfl⟩

def wP1 : PaperRec := { paperId := "P1" }

def wP2 : PaperRec := { paperId := "P2", abstract := some (some "two words".data) }

def wP2Block : ContentResult :=
  { content_type := "abstract", content := some "two words".data,
    source := "abstract", word_count := 2 }

/-- Witness for claim C5: two papers, `max_papers = 1`; the second paper
keeps its abstract verbatim. -/
theorem fetch_multiple_papers_tail_policy_witness :
    (fetch_multiple_papers_content wHttp [wP1, wP2] 1).map Prod.fst =
      [wP1, wP2]
    ∧ (fetch_multiple_papers_content wHttp [wP1, wP2] 1).drop 1 =
      [(wP2, wP2Block)] := by
  have h := fetch_multiple_papers_tail_policy wHttp [wP1, wP2] 1 (by decide)
  refine ⟨h.2.1, ?_⟩
  rw [h.2.2.2.1]
  decide

/-! ## Search client (src/backend/app/routers/semantic_scholar.py,
`search_papers_internal`, lines 115-184) -/

/-- Python `dict` lookup on a JSON object (`None` when the key is absent). -/
def jvLookup (fields : List (String × JValue)) (key : String) :
    Option JValue :=
  fields.lookup key

/-- The possible outcomes of the search-provider HTTP call: a response with
a status code and (when it parses as JSON) a payload, a timeout, or any
other exception. -/
inductive SSOutcome where
  | resp (status : Nat) (body : Option JValue)
  | timeout
  | exn (msg : String)

/-- pydantic validation of a `str` field fed from `p.get(key, default)`:
a missing key takes the default; a present value must be a string (anything
else, including `null`, raises a validation error). -/
def parseStrD (v : Option JValue) (d : String) : Except Unit String :=
  match v with
  | none => .ok d
  | some (.str s) => .ok s
  | some _ => .error ()

/-- pydantic `Optional[str]`: a missing key and `null` give `None`. -/
def parseOptStr (v : Option JValue) : Except Unit (Option String) :=
  match v with
  | none => .ok none
  | some .null => .ok none
  | some (.str s) => .ok (some s)
  | some _ => .error ()

/-- pydantic `Optional[int]`. -/
def parseOptInt (v : Option JValue) : Except Unit (Option Int) :=
  match v with
  | none => .ok none
  | some .null => .ok none
  | some (.num n) => .ok (some n)
  | some _ => .error ()

/-- pydantic `Optional[dict]`. -/
def parseOptDict (v : Option JValue) :
    Except Unit (Option (List (String × JValue))) :=
  match v with
  | none => .ok none
  | some .null => .ok none
  | some (.obj fields) => .ok (some fields)
  | some _ => .error ()

/-- `[Author(name=a.get("name", "")) for a in p.get("authors", [])]`:
iterating a non-list value or touching a non-dict entry raises. -/
def parseAuthors (v : Option JValue) : Except Unit (List Author) :=
  match v with
  | none => .ok []
  | some (.arr l) => l.mapM fun a =>
      match a with
      | .obj fields => (parseStrD (jvLookup fields "name") "").map Author.mk
      | _ => .error ()
  | some _ => .error ()

/-- Construction of one pydantic `Paper` from a raw payload entry. -/
def parsePaper (p : JValue) : Except Unit Paper :=
  match p with
  | .obj fields => do
    let paperId ← parseStrD (jvLookup fields "paperId") ""
    let title ← parseStrD (jvLookup fields "title") ""
    let abstract ← parseOptStr (jvLookup fields "abstract")
    let authors ← parseAuthors (jvLookup fields "authors")
    let year ← parseOptInt (jvLookup fields "year")
    let citationCount ← parseOptInt (jvLookup fields "citationCount")
    let url ← parseOptStr (jvLookup fields "url")
    let openAccessPdf ← parseOptDict (jvLookup fields "openAccessPdf")
    return { paperId := paperId, title := title, abstract := abstract,
             authors := authors, year := year, citationCount := citationCount,
             url := url, openAccessPdf := openAccessPdf }
  | _ => .error ()

/-- `search_papers_internal`: returns `[]` on a non-200 status, a timeout,
or any exception (including an unparseable or malformed payload); on
success keeps exactly the payload entries with a truthy `title` (the
comprehension filter `if p.get("title")`), parsed into `Paper` records. -/
def search_papers_internal (outcome : SSOutcome) : List Paper :=
  match outcome with
  | .timeout => []
  | .exn _ => []
  | .resp status body =>
    if status ≠ 200 then []
    else
      match body with
      | none => []
      | some data =>
        match data with
        | .obj fields =>
          match (jvLookup fields "data").getD (.arr []) with
          | .arr items =>
            match items.mapM (fun p =>
                match p with
                | .obj pf => Except.ok
                    (((jvLookup pf "title").getD .null).truthy, p)
                | _ => (.error () : Except Unit (Bool × JValue))) with
            | .error _ => []
            | .ok tagged =>
              match (tagged.filter (fun tp => tp.1)).mapM
                  (fun tp => parsePaper tp.2) with
              | .error _ => []
              | .ok papers => papers
          | _ => []
        | _ => []

theorem except_bind_ok {α β ε : Type} {e : Except ε α} {k : α → Except ε β}
    {b : β} (h : (e >>= k) = .ok b) : ∃ a, e = .ok a ∧ k a = .ok b := by
  cases e with
  | error err => exact Except.noConfusion h
  | ok a => exact ⟨a, rfl, h⟩

theorem mapM_except_mem {α β : Type} (f : α → Except Unit β) :
    ∀ (l : List α) (res : List β), l.mapM f = .ok res →
      ∀ b ∈ res, ∃ a ∈ l, f a = .ok b := by
  intro l
  induction l with
  | nil =>
    intro res h b hb
    rw [List.mapM_nil] at h
    cases h
    simp at hb
  | cons a l ih =>
    intro res h b hb
    rw [List.mapM_cons] at h
    obtain ⟨b0, hfa, h⟩ := except_bind_ok h
    obtain ⟨bs, hml, h⟩ := except_bind_ok h
    cases h
    rcases List.mem_cons.mp hb with rfl | hbs
    · exact ⟨a, List.mem_cons_self a l, hfa⟩
    · obtain ⟨a1, ha1, hfa1⟩ := ih bs hml b hbs
      exact ⟨a1, List.mem_cons_of_mem a ha1, hfa1⟩

theorem parsePaper_title (pf : List (String × JValue)) (p : Paper)
    (h : parsePaper (.obj pf) = .ok p) :
    parseStrD (jvLookup pf "title") "" = .ok p.title := by
  simp only [parsePaper] at h
  obtain ⟨pid, h1, h⟩ := except_bind_ok h
  obtain ⟨title, h2, h⟩ := except_bind_ok h
  obtain ⟨abs0, h3, h⟩ := except_bind_ok h
  obtain ⟨authors, h4, h⟩ := except_bind_ok h
  obtain ⟨year, h5, h⟩ := except_bind_ok h
  obtain ⟨cc, h6, h⟩ := except_bind_ok h
  obtain ⟨url, h7, h⟩ := except_bind_ok h
  obtain ⟨pdf, h8, h⟩ := except_bind_ok h
  cases h
  exact h2

/-- Claim C6: the search client returns an empty list, rather than raising,
on a non-200 upstream response, a timeout, or a malformed payload; in the
successful case it retains only papers whose title is non-empty, while a
missing abstract does not exclude a paper (last conjunct: a concrete paper
with a `null` abstract and non-empty title is retained). -/
theorem search_papers_internal_policy (outcome : SSOutcome) :
    (outcome = .timeout → search_papers_internal outcome = [])
    ∧ (∀ m, outcome = .exn m → search_papers_internal outcome = [])
    ∧ (∀ st body, outcome = .resp st body → st ≠ 200 →
        search_papers_internal outcome = [])
    ∧ (∀ st, outcome = .resp st none → search_papers_internal outcome = [])
    ∧ (∀ p ∈ search_papers_internal outcome, p.title ≠ "")
    ∧ search_papers_internal (.resp 200 (some (.obj [("data", .arr
        [.obj [("paperId", .str "P1"), ("title", .str "T1"),
               ("abstract", .null)]])]))) =
      [{ paperId := "P1", title := "T1" }] := by
  refine ⟨?_, ?_, ?_, ?_, ?_, ?_⟩
  · rintro rfl; rfl
  · rintro m rfl; rfl
  · rintro st body rfl hst
    simp [search_papers_internal, hst]
  · rintro st rfl
    by_cases hst : st = 200
    · subst hst; rfl
    · simp [search_papers_internal, hst]
  · intro p hp
    match outcome with
    | .timeout => simp [search_papers_internal] at hp
    | .exn m => simp [search_papers_internal] at hp
    | .resp status body =>
      by_cases hst : status ≠ 200
      · simp [search_papers_internal, hst] at hp
      · rw [not_not] at hst
        subst hst
        have h200 : ¬((200 : Nat) ≠ 200) := by decide
        simp only [search_papers_internal, if_neg h200] at hp
        match body with
        | none => simp at hp
        | some data =>
          match data with
          | .null | .bool _ | .num _ | .str _ | .arr _ => simp at hp
          | .obj fields =>
            simp only at hp
            match hdata : (jvLookup fields "data").getD (.arr []) with
            | .null | .bool _ | .num _ | .str _ | .obj _ =>
              rw [hdata] at hp; simp at hp
            | .arr items =>
              rw [hdata] at hp
              simp only at hp
              match hm1 : items.mapM (fun p =>
                  match p with
                  | .obj pf => Except.ok
                      (((jvLookup pf "title").getD .null).truthy, p)
                  | _ => (.error () : Except Unit (Bool × JValue))) with
              | .error e => rw [hm1] at hp; simp at hp
              | .ok tagged =>
                rw [hm1] at hp
                simp only at hp
                match hm2 : (tagged.filter (fun tp => tp.1)).mapM
                    (fun tp => parsePaper tp.2) with
                | .error e => rw [hm2] at hp; simp at hp
                | .ok papers =>
                  rw [hm2] at hp
                  simp only at hp
                  obtain ⟨tp, htpmem, htp⟩ :=
                    mapM_except_mem _ _ papers hm2 p hp
                  have hfilter := List.mem_filter.mp htpmem
                  obtain ⟨item, hitem, hitem2⟩ :=
                    mapM_except_mem _ _ tagged hm1 tp hfilter.1
                  match item with
                  | .null | .bool _ | .num _ | .str _ | .arr _ =>
                    exact Except.noConfusion hitem2
                  | .obj pf =>
                    have htp2 : tp = (((jvLookup pf "title").getD
                        .null).truthy, .obj pf) := by
                      cases hitem2; rfl
                    have htruthy : ((jvLookup pf "title").getD
                        .null).truthy = true := by
                      have := hfilter.2
                      rw [htp2] at this
                      exact this
                    have htitle := parsePaper_title pf p
                      (by rw [← show tp.2 = .obj pf by rw [htp2]]; exact htp)
                    match hlook : jvLookup pf "title" with
                    | none =>
                      rw [hlook] at htruthy
                      simp [JValue.truthy] at htruthy
                    | some jv =>
                      rw [hlook] at htruthy htitle
                      match jv with
                      | .null | .bool _ | .num _ | .arr _ | .obj _ =>
                        exact Except.noConfusion htitle
                      | .str sv =>
                        simp only [Option.getD_some, JValue.truthy,
                          bne_iff_ne] at htruthy
                        have : sv = p.title := by
                          simp only [parseStrD] at htitle
                          cases htitle
                          rfl
                        rw [← this]
                        exact htruthy
  · rfl

/-- Witness for claim C6 at concrete failing outcomes. -/
theorem search_papers_internal_policy_witness :
    search_papers_internal .timeout = []
    ∧ search_papers_internal (.resp 500 (some (.obj []))) = [] := by
  refine ⟨(search_papers_internal_policy .timeout).1 rfl, ?_⟩
  exact (search_papers_internal_policy _).2.2.1 500 (some (.obj [])) rfl
    (by decide)

/-! ## Decomposer (src/backend/app/services/decomposer.py,
`generate_sub_queries`, lines 98-169) -/

/-- The possible outcomes of one LLM chat completion followed by
`json.loads`: an API/network exception, a JSON parse failure
(`json.JSONDecodeError`), or a parsed JSON value. -/
inductive LLMOutcome where
  | exn (msg : String)
  | parseError (msg : String)
  | parsed (v : JValue)

/-- The decomposition result dictionary; both keys are always present. -/
structure DecomposeResult where
  reasoning : JValue
  sub_queries : List JValue

/-- The structure validation of the decomposer response: a value under the
`sub_queries` key that is a list.  Everything else — a non-dict response, a
missing key, or a non-list value — raises
`ValueError("Invalid response structure")` (or a `TypeError` on non-dict
membership tests), all caught by the same generic handler. -/
def validSubQueries (v : JValue) : Option (List JValue) :=
  match v with
  | .obj fields =>
    match jvLookup fields "sub_queries" with
    | some (.arr qs) => some qs
    | _ => none
  | _ => none

/-- `generate_sub_queries`: fall back to `[base_keywords]` when the API key
is unset, the LLM call raises, the response does not parse, or the parsed
structure carries no valid non-empty `sub_queries` list. -/
def generate_sub_queries (apiKey : Option String) (llm : LLMOutcome)
    (user_topic base_keywords : String) : DecomposeResult :=
  if pyKeyFalsy apiKey then
    { reasoning := .str "API key not configured, using base keywords only"
      sub_queries := [.str base_keywords] }
  else
    match llm with
    | .exn msg =>
      { reasoning := .str ("Error occurred, using base keywords: " ++ msg)
        sub_queries := [.str base_keywords] }
    | .parseError msg =>
      { reasoning := .str ("JSON parse error, using base keywords: " ++ msg)
        sub_queries := [.str base_keywords] }
    | .parsed data =>
      match validSubQueries data with
      | none =>
        { reasoning := .str
            ("Error occurred, using base keywords: " ++
              "Invalid response structure")
          sub_queries := [.str base_keywords] }
      | some [] =>
        { reasoning := (match data with
            | .obj fields => (jvLookup fields "reasoning").getD (.str "")
            | _ => .str "")
          sub_queries := [.str base_keywords] }
      | some (q :: rest) =>
        { reasoning := (match data with
            | .obj fields => (jvLookup fields "reasoning").getD (.str "")
            | _ => .str "")
          sub_queries := q :: rest }

/-- Claim C7: the decomposition result always carries a non-empty
`sub_queries` list; with a missing API key, an unreachable LLM, an
unparseable response, or a response without a valid non-empty list under
`sub_queries`, it is exactly the single-element list with `base_keywords`
verbatim; a valid non-empty list is passed through.  All exception paths
end in the fallback result, never in a raise. -/
theorem generate_sub_queries_policy (apiKey : Option String)
    (llm : LLMOutcome) (user_topic base_keywords : String) :
    (generate_sub_queries apiKey llm user_topic base_keywords).sub_queries
      ≠ []
    ∧ (pyKeyFalsy apiKey = true →
        (generate_sub_queries apiKey llm user_topic
          base_keywords).sub_queries = [.str base_keywords])
    ∧ (∀ m, llm = .exn m →
        (generate_sub_queries apiKey llm user_topic
          base_keywords).sub_queries = [.str base_keywords])
    ∧ (∀ m, llm = .parseError m →
        (generate_sub_queries apiKey llm user_topic
          base_keywords).sub_queries = [.str base_keywords])
    ∧ (∀ v, llm = .parsed v → validSubQueries v = none →
        (generate_sub_queries apiKey llm user_topic
          base_keywords).sub_queries = [.str base_keywords])
    ∧ (∀ v, llm = .parsed v → validSubQueries v = some [] →
        (generate_sub_queries apiKey llm user_topic
          base_keywords).sub_queries = [.str base_keywords])
    ∧ (∀ v qs, pyKeyFalsy apiKey = false → llm = .parsed v →
        validSubQueries v = some qs → qs ≠ [] →
        (generate_sub_queries apiKey llm user_topic
          base_keywords).sub_queries = qs) := by
  by_cases hkey : pyKeyFalsy apiKey = true
  · have hres : (generate_sub_queries apiKey llm user_topic
        base_keywords).sub_queries = [.str base_keywords] := by
      simp [generate_sub_queries, hkey]
    refine ⟨by rw [hres]; simp, fun _ => hres, fun m _ => hres,
      fun m _ => hres, fun v _ _ => hres, fun v _ _ => hres,
      fun v qs hk => ?_⟩
    rw [hk] at hkey
    exact absurd hkey (by simp)
  · rw [Bool.not_eq_true] at hkey
    refine ⟨?_, fun hk => ?_, fun m hm => ?_, fun m hm => ?_,
      fun v hv hval => ?_, fun v hv hval => ?_,
      fun v qs hk hv hval hne => ?_⟩
    · match llm with
      | .exn m => simp [generate_sub_queries, hkey]
      | .parseError m => simp [generate_sub_queries, hkey]
      | .parsed data =>
        match hval : validSubQueries data with
        | none => simp [generate_sub_queries, hkey, hval]
        | some [] => simp [generate_sub_queries, hkey, hval]
        | some (q :: rest) => simp [generate_sub_queries, hkey, hval]
    · rw [hk] at hkey
      exact Bool.noConfusion hkey
    · subst hm
      simp [generate_sub_queries, hkey]
    · subst hm
      simp [generate_sub_queries, hkey]
    · subst hv
      simp [generate_sub_queries, hkey, hval]
    · subst hv
      simp [generate_sub_queries, hkey, hval]
    · subst hv
      cases qs with
      | nil => exact absurd rfl hne
      | cons q rest => simp [generate_sub_queries, hkey, hval]

/-- Witness for claim C7: missing API key, and a parsed response whose
`sub_queries` value is not a list. -/
theorem generate_sub_queries_policy_witness :
    (generate_sub_queries none (.parsed .null) "topic"
      "base words").sub_queries = [.str "base words"]
    ∧ (generate_sub_queries (some "key")
        (.parsed (.obj [("sub_queries", .str "oops")])) "topic"
        "base words").sub_queries = [.str "base words"] := by
  refine ⟨(generate_sub_queries_policy none (.parsed .null) "topic"
    "base words").2.1 rfl, ?_⟩
  exact (generate_sub_queries_policy (some "key")
    (.parsed (.obj [("sub_queries", .str "oops")])) "topic"
    "base words").2.2.2.2.1 _ rfl rfl

/-! ## Narrator (src/backend/app/services/cowriter.py,
`generate_research_report`, lines 71-138) -/

structure KeyInsight where
  insight : String
  source : String
  paperId : String
deriving DecidableEq, Repr

/-- `generate_research_report`: with a falsy API key the literal sentinel
string is returned (no exception is raised and the LLM is not called); a
raised LLM exception also degrades to an error string; otherwise the
report text is returned as-is.  The papers and insights only shape the
prompt, which is part of the oracle. -/
def generate_research_report (apiKey : Option String)
    (llm : Except String String) (topic : String)
    (papers_with_content : List (PaperRec × ContentResult))
    (insights : List KeyInsight) : String :=
  if pyKeyFalsy apiKey then "Error: API key not configured"
  else
    match llm with
    | .error msg => "Error generating research report: " ++ msg
    | .ok report => report

/-- Claim C9: with missing API credentials the Narrator returns the literal
sentinel "Error: API key not configured" instead of raising (and an LLM
exception likewise becomes an error string), so downstream stages still
receive a string value. -/
theorem generate_research_report_sentinel (apiKey : Option String)
    (llm : Except String String) (topic : String)
    (papers_with_content : List (PaperRec × ContentResult))
    (insights : List KeyInsight) :
    (pyKeyFalsy apiKey = true →
      generate_research_report apiKey llm topic papers_with_content
        insights = "Error: API key not configured")
    ∧ (∀ msg, pyKeyFalsy apiKey = false → llm = .error msg →
        generate_research_report apiKey llm topic papers_with_content
          insights = "Error generating research report: " ++ msg) := by
  constructor
  · intro hk
    simp [generate_research_report, hk]
  · intro msg hk hllm
    subst hllm
    simp [generate_research_report, hk]

/-- Witness for claim C9: key absent, and key present with an LLM error. -/
theorem generate_research_report_sentinel_witness :
    generate_research_report none (.ok "report") "t" [] [] =
      "Error: API key not configured"
    ∧ generate_research_report (some "k") (.error "boom") "t" [] [] =
      "Error generating research report: boom" := by
  refine ⟨(generate_research_report_sentinel none (.ok "report") "t" []
    []).1 rfl, ?_⟩
  exact (generate_research_report_sentinel (some "k") (.error "boom") "t"
    [] []).2 "boom" rfl rfl

/-! ## Insight extraction endpoint (src/backend/app/routers/
research_pipeline.py, `analyze_papers`, lines 259-311) -/

structure HTTPError where
  status : Nat
  detail : String
deriving DecidableEq, Repr

/-- The request paper shape for insight extraction (`PaperInput`):
`abstract` is a required string. -/
structure PaperInput where
  paperId : String
  title : String
  abstract : Chars
  authors : List String
  year : Option Int := none
  url : Option String := none

/-- One `KeyInsight(...)` built from a response entry; non-dict entries and
non-string field values raise (pydantic validation). -/
def parseKeyInsight (v : JValue) : Except Unit KeyInsight :=
  match v with
  | .obj fields => do
    let insight ← parseStrD (jvLookup fields "insight") ""
    let source ← parseStrD (jvLookup fields "source") ""
    let paperId ← parseStrD (jvLookup fields "paperId") ""
    return { insight := insight, source := source, paperId := paperId }
  | _ => .error ()

/-- `analyze_papers`: 500 on a missing key, an LLM exception, a JSON parse
failure, or a malformed structure; otherwise the insights list parsed from
`data.get("insights", [])`.  The detail strings of the generic handlers
interpolate `str(e)` and are modelled by fixed descriptions. -/
def analyze_papers (apiKey : Option String) (llm : LLMOutcome)
    (papers : List PaperInput) (topic : String) :
    Except HTTPError (List KeyInsight) :=
  if pyKeyFalsy apiKey then
    .error { status := 500, detail := "GROQ_API_KEY not configured" }
  else
    match llm with
    | .exn msg =>
      .error { status := 500, detail := "Error analyzing papers: " ++ msg }
    | .parseError msg =>
      .error { status := 500,
               detail := "Failed to parse AI response: " ++ msg }
    | .parsed data =>
      match data with
      | .obj fields =>
        match (jvLookup fields "insights").getD (.arr []) with
        | .arr items =>
          match items.mapM parseKeyInsight with
          | .ok insights => .ok insights
          | .error _ =>
            .error { status := 500,
                     detail := "Error analyzing papers: validation error" }
        | _ =>
          .error { status := 500,
                   detail := "Error analyzing papers: not iterable" }
      | _ =>
        .error { status := 500,
                 detail := "Error analyzing papers: attribute error" }

/-! ## Editor (src/backend/app/services/cowriter.py,
`generate_final_script`, lines 209-290) -/

/-- One reference dictionary handed to the Editor for citation context. -/
structure RefEntry where
  title : String
  authors : String
  year : Option Int
  url : Option String

/-- `generate_final_script`: a falsy API key, an LLM exception, and a JSON
parse failure each produce a dict carrying an `"error"` key; a parsed
response is returned as-is. -/
def generate_final_script (apiKey : Option String) (llm : LLMOutcome)
    (topic research_report : String) (references : List RefEntry) :
    JValue :=
  if pyKeyFalsy apiKey then .obj [("error", .str "API key not configured")]
  else
    match llm with
    | .exn msg => .obj [("error", .str msg)]
    | .parseError msg =>
      .obj [("error", .str ("JSON parse error: " ++ msg))]
    | .parsed data => data

/-! ## Deep-research pipeline (src/backend/app/routers/
research_pipeline.py, `start_deep_research`, lines 771-1040) -/

structure NarrativeStructure where
  hook : String
  introduction : String
  deep_dive : String
  conclusion : String

structure Reference where
  title : String
  authors : String
  year : Option Int
  url : Option String

structure ContentBlueprint where
  key_insights : List KeyInsight
  narrative : NarrativeStructure
  references : List Reference

structure DeepResearchRequest where
  topic : String
  keywords : String
  enable_full_text : Bool := true

structure DeepResearchResult where
  sub_queries : List JValue
  decomposition_reasoning : JValue
  papers : List SearchPaperResult
  total_papers : Nat
  papers_with_full_text : Nat
  research_report : String
  content_blueprint : ContentBlueprint

/-- The external collaborators of one pipeline run: the configured LLM key,
the decomposer / insight / narrator / editor completions, the per-query
search outcome (the pipeline searches each sub-query value with limit 8),
and the reader-service HTTP oracle. -/
structure Oracles where
  groqKey : Option String
  decomposeLLM : LLMOutcome
  search : JValue → Nat → Except String (List Paper)
  http : String → JinaHttp
  insightLLM : LLMOutcome
  narratorLLM : Except String String
  editorLLM : LLMOutcome

/-- Python `", ".join(names[:3])`. -/
def pyJoinCommaSpace (names : List String) : String :=
  (List.intercalate ", ".data (names.map String.data)).asString

/-- `if "error" in script_result:` — a key test on a dict, an element test
on a list, a substring test on a string; anything else raises `TypeError`
(caught by the outer generic handler). -/
def pyInError (v : JValue) : Except Unit Bool :=
  match v with
  | .obj fields => .ok (jvLookup fields "error").isSome
  | .arr l => .ok (l.any fun e =>
      match e with
      | .str s => s = "error"
      | _ => false)
  | .str s => .ok (decide ("error".data <:+: s.data))
  | _ => .error ()

/-- `NarrativeStructure(**narrative_data.get(...))`: the narrative fields,
each defaulting to the empty string; a non-dict value or non-string fields
raise. -/
def parseNarrative (v : JValue) : Except Unit NarrativeStructure :=
  match v with
  | .obj f => do
    let hook ← parseStrD (jvLookup f "hook") ""
    let introduction ← parseStrD (jvLookup f "introduction") ""
    let deep_dive ← parseStrD (jvLookup f "deep_dive") ""
    let conclusion ← parseStrD (jvLookup f "conclusion") ""
    return { hook := hook, introduction := introduction,
             deep_dive := deep_dive, conclusion := conclusion }
  | _ => .error ()

/-- The `papers_dict` conversion of stage 2: each deduplicated paper as the
plain dictionary handed to the later stages (authors reduced to their
names, `pdfUrl` from the open-access dict). -/
def toPaperRec (p : Paper) : PaperRec :=
  { paperId := p.paperId
    title := p.title
    abstract := some (p.abstract.map String.data)
    authors := p.authors.map Author.name
    year := p.year
    citationCount := p.citationCount
    url := p.url
    pdfUrl := jvAsOptStr (p.openAccessPdf.bind fun d => d.lookup "url") }

/-- `papers_for_analysis`: the first 10 papers that have a truthy abstract,
as `PaperInput` records. -/
def papersForAnalysis (papers_with_content : List (PaperRec × ContentResult)) :
    List PaperInput :=
  (papers_with_content.take 10).filterMap fun pc =>
    if pyTruthyOptChars pc.1.abstract.join then
      some { paperId := pc.1.paperId
             title := pc.1.title
             abstract := pyOrChars pc.1.abstract.join []
             authors := pc.1.authors
             year := pc.1.year
             url := pc.1.url }
    else none

/-- The response conversion of one enriched paper dictionary. -/
def toSearchPaperResponse (p : PaperRec) : SearchPaperResult :=
  { paperId := p.paperId
    title := p.title
    abstract := p.abstract.join.map List.asString
    authors := p.authors
    year := p.year
    citationCount := p.citationCount
    url := p.url
    pdfUrl := p.pdfUrl }

/-- `start_deep_research`: the full pipeline.  Stages run strictly in
sequence; the explicit `HTTPException`s (zero papers, editor failure)
propagate, and modelled parse errors surface as the generic 500. -/
def start_deep_research (o : Oracles) (req : DeepResearchRequest) :
    Except HTTPError DeepResearchResult :=
  -- Stage 1: decomposition
  let decomposition :=
    generate_sub_queries o.groqKey o.decomposeLLM req.topic req.keywords
  let sub_queries := decomposition.sub_queries
  let reasoning := decomposition.reasoning
  -- Stage 2: parallel multi-search, then merge and deduplicate
  let search_results := sub_queries.map fun q => o.search q 8
  let all_papers := mergeSearchResults search_results
  if all_papers.length = 0 then
    .error { status := 404,
             detail := "No papers found across all search queries" }
  else
    let papers_dict := all_papers.map toPaperRec
    -- Stage 3: content fetch (deep mode) or abstract-only blocks
    let papers_with_content :=
      if req.enable_full_text then
        fetch_multiple_papers_content o.http papers_dict 8
      else
        papers_dict.map fun p => (p, abstractOnlyBlock p)
    let full_text_count :=
      if req.enable_full_text then
        papers_with_content.countP fun pc =>
          pc.2.content_type = "full_text"
      else 0
    -- Stage 4: insight extraction
    match analyze_papers o.groqKey o.insightLLM
        (papersForAnalysis papers_with_content) req.topic with
    | .error e => .error e
    | .ok insights =>
      -- Stage 5: Narrator
      let research_report := generate_research_report o.groqKey
        o.narratorLLM req.topic (papers_with_content.take 10) insights
      -- Stage 6: Editor
      let references := (papers_with_content.take 10).map fun pc =>
        ({ title := pc.1.title
           authors := pyJoinCommaSpace (pc.1.authors.take 3)
           year := pc.1.year
           url := pc.1.url } : RefEntry)
      let script_result := generate_final_script o.groqKey o.editorLLM
        req.topic research_report references
      match pyInError script_result with
      | .error _ =>
        .error { status := 500, detail := "Deep research failed: TypeError" }
      | .ok true =>
        .error { status := 500, detail := "Editor failed: see error value" }
      | .ok false =>
        let narrative_data : Except Unit JValue :=
          match script_result with
          | .obj f => .ok ((jvLookup f "narrative").getD (.obj []))
          | _ => .error ()
        match narrative_data with
        | .error _ =>
          .error { status := 500,
                   detail := "Deep research failed: AttributeError" }
        | .ok nd =>
          match parseNarrative nd with
          | .error _ =>
            .error { status := 500,
                     detail := "Deep research failed: validation error" }
          | .ok narrative =>
            let papers_response := papers_with_content.map fun pc =>
              toSearchPaperResponse pc.1
            let references_response :=
              (papers_with_content.take 10).map fun pc =>
                ({ title := pc.1.title
                   authors := pyJoinCommaSpace (pc.1.authors.take 3)
                   year := pc.1.year
                   url := pc.1.url } : Reference)
            .ok { sub_queries := sub_queries
                  decomposition_reasoning := reasoning
                  papers := papers_response
                  total_papers := papers_response.length
                  papers_with_full_text := full_text_count
                  research_report := research_report
                  content_blueprint :=
                    { key_insights := insights
                      narrative := narrative
                      references := references_response } }

/-- Claim C8: when the deduplicated multi-search result is empty, the
pipeline terminates with the distinct not-found error (HTTP 404, "No
papers found across all search queries") before the insight-extraction
stage; no later stage runs, so the outcome is identical for any oracles
that agree on the configuration, the decomposer completion, and the search
results. -/
theorem deep_research_no_papers_404 (o o2 : Oracles)
    (req : DeepResearchRequest)
    (hkey : o2.groqKey = o.groqKey)
    (hdec : o2.decomposeLLM = o.decomposeLLM)
    (hsearch : o2.search = o.search)
    (hempty : mergeSearchResults
      (((generate_sub_queries o.groqKey o.decomposeLLM req.topic
          req.keywords).sub_queries).map fun q => o.search q 8) = []) :
    start_deep_research o req =
      .error { status := 404,
               detail := "No papers found across all search queries" }
    ∧ start_deep_research o2 req = start_deep_research o req := by
  have h1 : start_deep_research o req =
      .error { status := 404,
               detail := "No papers found across all search queries" } := by
    rw [start_deep_research]
    simp only [hempty, List.length_nil]
    rw [if_pos trivial]
  refine ⟨h1, ?_⟩
  rw [h1]
  rw [start_deep_research]
  simp only [hkey, hdec, hsearch, hempty, List.length_nil]
  rw [if_pos trivial]

def wOracles : Oracles :=
  { groqKey := some "k"
    decomposeLLM := .exn "llm down"
    search := fun _ _ => .ok []
    http := wHttp
    insightLLM := .exn "x"
    narratorLLM := .error "x"
    editorLLM := .exn "x" }

def wOracles2 : Oracles :=
  { wOracles with
    http := fun _ => .timeout
    insightLLM := .parsed (.obj [])
    narratorLLM := .ok "a report"
    editorLLM := .parsed (.obj [("narrative", .obj [])]) }

/-- Witness for claim C8: every sub-query search returns zero papers; the
two oracle bundles differ in everything after the search stage. -/
theorem deep_research_no_papers_404_witness :
    start_deep_research wOracles { topic := "t", keywords := "kw" } =
      .error { status := 404,
               detail := "No papers found across all search queries" }
    ∧ start_deep_research wOracles2 { topic := "t", keywords := "kw" } =
      start_deep_research wOracles { topic := "t", keywords := "kw" } := by
  exact deep_research_no_papers_404 wOracles wOracles2
    { topic := "t", keywords := "kw" } rfl rfl rfl rfl

end Farabi
